import Mathlib

/-!
Shallow embedding of the bGrease entity-component-system core, translated
from `grease/component/manager.py` and `grease/mode.py`.

Conventions of the embedding:
* Entity identities and mode/system/component identities are `Nat`.
* Component record payloads are abstracted as `Nat` handles; a component
  store is the association list of its `(entity_id, record)` pairs, which
  models the dict-like store interface (`del com[id]`, `com[id]`,
  `entity_id_set`) that `manager.py` relies on.
* Python exceptions are modelled by the `PyErr` type.  An operation that
  can raise either returns `Except PyErr _` or returns the state paired
  with an optional error when the source raises before any mutation.
* `time` and `dt` values are modelled as integers.
-/

/-- Python exceptions raised (directly or via builtins) by the embedded code.
`outOfFuel` is not a Python error: it is the artificial result used when the
fuel of the mutually recursive mode operations runs out. -/
inductive PyErr where
  | keyError
  | indexError
  | valueError
  | assertionError
  | attributeError
  | outOfFuel
deriving DecidableEq, Repr

/-- A component store: the mapping from entity id to data record.
Modelled from the spec: the concrete component classes are not part of the
sources, only the dict-like mapping interface the manager uses, described in
the spec as a mapping from entity identity to a per-entity record. -/
structure Store where
  recs : List (Nat × Nat)
deriving DecidableEq, Repr

/-- Keys of a store, i.e. its `entity_id_set`. -/
def Store.keys (s : Store) : List Nat := s.recs.map Prod.fst

/-- Membership of an entity id in a store (`id in store` / `store.contains(id)`). -/
def Store.containsId (s : Store) (id : Nat) : Prop := id ∈ s.keys

instance (s : Store) (id : Nat) : Decidable (s.containsId id) := by
  unfold Store.containsId; infer_instance

/-- Record lookup `com[id]`, returning `none` where Python raises `KeyError`. -/
def Store.getRec (s : Store) (id : Nat) : Option Nat :=
  (s.recs.find? (fun p => p.1 == id)).map Prod.snd

/-- Deletion of the record for `id`; when `id` is absent this is the identity,
matching the `try: del com[id] except KeyError: pass` in `__delitem__`. -/
def Store.delRec (s : Store) (id : Nat) : Store :=
  ⟨s.recs.filter (fun p => p.1 != id)⟩

/-- The state of a `ComponentEntityManager` (`manager.py` lines 3-90):
the named component stores (`_component_map`), the live entity id set
(`_entities`, a Python set kept here as a duplicate-free list), the ordered
systems tuple, the id counter `_entity_id`, the clock `time`, and a trace of
the `system.run(dt)` invocations made by `run`. -/
structure CEM where
  componentMap : List (String × Store)
  entities : List Nat
  systems : List Nat
  nextId : Nat
  time : Int
  sysEvents : List (Nat × Int)
deriving DecidableEq, Repr

/-- Membership test of `__contains__` (`manager.py` lines 44-46). -/
def cemContains (w : CEM) (id : Nat) : Prop := id ∈ w.entities

instance (w : CEM) (id : Nat) : Decidable (cemContains w id) := by
  unfold cemContains; infer_instance

/-- Entity removal, `__delitem__` (`manager.py` lines 58-68): if the id is
live, delete its record from every registered store (missing records are
ignored) and then remove the id from the live set; otherwise raise
`KeyError` before any mutation.  The pair returns the Python state after the
call together with the raised error, if any. -/
def delItem (w : CEM) (id : Nat) : CEM × Option PyErr :=
  if id ∈ w.entities then
    ({ w with
        componentMap := w.componentMap.map (fun nc => (nc.1, nc.2.delRec id)),
        entities := w.entities.filter (fun e => e != id) }, none)
  else
    (w, some .keyError)

/-- Python `set.add` on the live-entity set: append only when absent. -/
def setAdd (l : List Nat) (x : Nat) : List Nat :=
  if x ∈ l then l else l ++ [x]

/-- Entity creation, `new_entity` (`manager.py` lines 70-73): increment the
id counter, add the new id to the live set, and return the new id (the
`Entity` wrapper is identified with its id). -/
def newEntity (w : CEM) : CEM × Nat :=
  let id := w.nextId + 1
  ({ w with nextId := id, entities := setAdd w.entities id }, id)

/-- One operation of an entity lifecycle history. -/
inductive Op where
  | newEntity
  | remove (id : Nat)
deriving DecidableEq, Repr

/-- Apply one operation; the second component lists the ids issued by it.
A `remove` of a non-live id raises `KeyError`, which leaves the state
unchanged for the continuation of the history. -/
def applyOp (w : CEM) : Op → CEM × List Nat
  | .newEntity => let (w', id) := newEntity w; (w', [id])
  | .remove id => ((delItem w id).1, [])

/-- Run a history of operations, collecting all issued ids in order. -/
def runOps (w : CEM) : List Op → CEM × List Nat
  | [] => (w, [])
  | op :: rest =>
    let (w1, is1) := applyOp w op
    let (w2, is2) := runOps w1 rest
    (w2, is1 ++ is2)

/-- Number of `newEntity` operations in a history. -/
def countNew : List Op → Nat
  | [] => 0
  | .newEntity :: rest => countNew rest + 1
  | .remove _ :: rest => countNew rest

/-- A fresh manager: `__init__` (`manager.py` lines 11-19) with the given
component map, no entities, `_entity_id = 0` and `time = 0`. -/
def initCEM (cm : List (String × Store)) (systems : List Nat) : CEM :=
  { componentMap := cm, entities := [], systems := systems,
    nextId := 0, time := 0, sysEvents := [] }

/-- Component lookup by name, `self.components[name]`: dict access raising
`KeyError` for an unknown name. -/
def lookupStore (cm : List (String × Store)) (name : String) : Except PyErr Store :=
  match cm.find? (fun p => p.1 == name) with
  | some p => .ok p.2
  | none => .error .keyError

/-- The narrowed id set of `iter_components` (`manager.py` lines 86-88):
start from the first store's `entity_id_set` and intersect with each
subsequent store's `entity_id_set` in turn. -/
def narrowIds (s0 : Store) (rest : List Store) : List Nat :=
  rest.foldl (fun acc s => acc.filter (fun id => id ∈ s.keys)) s0.keys

/-- The cross-component query `iter_components` (`manager.py` lines 80-90):
look up each named store, compute the incremental intersection of the key
sets, and yield for every id in it the list of records of the requested
stores in argument order.  An empty name list raises `IndexError` at
`components[0]`; an unknown name raises `KeyError`. -/
def iterComponents (cm : List (String × Store)) (names : List String) :
    Except PyErr (List (List (Option Nat))) := do
  let stores ← names.mapM (lookupStore cm)
  match stores with
  | [] => .error .indexError
  | s0 :: rest =>
    .ok ((narrowIds s0 rest).map (fun id => (s0 :: rest).map (fun s => s.getRec id)))

/-- The body of the system loop in `run` (`manager.py` lines 36-37): invoke
each system's per-step operation in order, recording one trace event per
invocation. -/
def runSystems (dt : Int) : List Nat → CEM → CEM
  | [], w => w
  | s :: rest, w => runSystems dt rest { w with sysEvents := w.sysEvents ++ [(s, dt)] }

/-- The scheduler step `run(dt)` (`manager.py` lines 33-37): advance the
clock by `dt`, then invoke every registered system once, in registration
order, passing the same `dt`. -/
def run (w : CEM) (dt : Int) : CEM :=
  runSystems dt w.systems { w with time := w.time + dt }

/-- Python dict assignment for the component map: replace the value of an
existing key in place, else append a new binding. -/
def dictSet (entries : List (String × Nat)) (name : String) (v : Nat) :
    List (String × Nat) :=
  if entries.any (fun p => p.1 == name) then
    entries.map (fun p => if p.1 == name then (p.1, v) else p)
  else entries ++ [(name, v)]

/-- Python dict lookup for the component map. -/
def dictGet (entries : List (String × Nat)) (name : String) : Option Nat :=
  (entries.find? (fun p => p.1 == name)).map Prod.snd

/-- `ComponentMap.__setitem__` (`manager.py` lines 101-104): store the
component under the name via plain dict assignment, then invoke its
`set_manager` hook if the component defines one.  Components are identified
by `Nat`; `hasSM` tells which of them define `set_manager`; the second state
component is the trace of `set_manager` invocations (the argument is always
the single owning manager). -/
def cmSetItem (hasSM : Nat → Bool) (st : List (String × Nat) × List Nat)
    (name : String) (comp : Nat) : List (String × Nat) × List Nat :=
  (dictSet st.1 name comp, st.2 ++ if hasSM comp then [comp] else [])

/-- `ComponentMap.__init__` (`manager.py` lines 96-99): register every
constructor-supplied component through `self[name] = comp`, in order. -/
def cmInit (hasSM : Nat → Bool) (comps : List (String × Nat)) :
    List (String × Nat) × List Nat :=
  comps.foldl (fun st p => cmSetItem hasSM st p.1 p.2) ([], [])

/-!
Embedding of the mode system of `grease/mode.py`.  Modes are identified by
`Nat`; the world `MW` holds the single mode manager's stack together with
the per-mode attributes.  The `manager` attribute of a mode is modelled as
the boolean `hasManager` (bound to the single manager versus `None`).
Lifecycle hooks (`on_activate`, `on_deactivate`, `on_last_mode_pop`) are
default no-ops in the source, so the embedding records their invocations in
an event trace.  Since mode operations recurse through the manager and
arbitrarily nested `BaseMulti` submodes, the mutually recursive operations
take a fuel argument and return `.error .outOfFuel` when it is exhausted. -/

/-- Hook invocations observable during mode transitions. -/
inductive MEv where
  | onActivate (m : Nat)
  | onDeactivate (m : Nat)
  | onLastModePop (m : Nat)
deriving DecidableEq, Repr

/-- The mode world: the manager's `modes` stack (last element is the top),
and for every mode id its `active` flag, whether its `manager` attribute is
set, whether it is a `BaseMulti`, its `submodes` list, its `active_submode`
and its `step_rate` attribute (every mode is modelled as carrying one, as
the `BaseMulti` machinery reads `submode.step_rate`; `none` is Python
`None`). -/
structure MW where
  stack : List Nat
  active : Nat → Bool
  hasManager : Nat → Bool
  isMulti : Nat → Bool
  submodes : Nat → List Nat
  activeSubmode : Nat → Option Nat
  stepRate : Nat → Option Int
  events : List MEv

/-- `BaseManager.current_mode` (`mode.py` lines 56-62). -/
def currentMode (w : MW) : Option Nat := w.stack.getLast?

/-- Append a hook event to the trace. -/
def pushEv (e : MEv) (w : MW) : MW := { w with events := w.events ++ [e] }

/-- `BaseMode.activate` (`mode.py` lines 155-165): when inactive, invoke
`on_activate`, record the manager, set `active`; otherwise do nothing. -/
def baseActivate (m : Nat) (w : MW) : MW :=
  if w.active m then w
  else
    let w1 := pushEv (.onActivate m) w
    { w1 with
        hasManager := Function.update w1.hasManager m true,
        active := Function.update w1.active m true }

/-- `BaseMode.deactivate` (`mode.py` lines 179-186): invoke `on_deactivate`
and clear `active`, without any idempotence guard. -/
def baseDeactivate (m : Nat) (w : MW) : MW :=
  let w1 := pushEv (.onDeactivate m) w
  { w1 with active := Function.update w1.active m false }

/-- `BaseMulti._set_active_submode` (`mode.py` lines 340-342): record the
submode and copy its `step_rate`. -/
def setActiveSubmode (m sub : Nat) (w : MW) : MW :=
  { w with
      activeSubmode := Function.update w.activeSubmode m (some sub),
      stepRate := Function.update w.stepRate m (w.stepRate sub) }

/-- `BaseMulti.clear_subnode` (`mode.py` lines 364-367). -/
def clearSubnode (m : Nat) (w : MW) : MW :=
  { w with
      activeSubmode := Function.update w.activeSubmode m none,
      stepRate := Function.update w.stepRate m none }

mutual

/-- `mode.activate(manager)` with dynamic dispatch: `BaseMulti.activate`
(`mode.py` lines 379-392) for multis, else `BaseMode.activate`.  The multi
version asserts it has submodes, records the manager, re-installs the
remembered (or first) submode, activates that submode through the manager,
and finally runs the base activation on itself. -/
def activate : Nat → Nat → MW → Except PyErr MW
  | 0, _, _ => .error .outOfFuel
  | fuel+1, m, w =>
    if w.isMulti m then
      match w.submodes m with
      | [] => .error .assertionError
      | s0 :: _ =>
        let w1 := { w with hasManager := Function.update w.hasManager m true }
        let sub := (w1.activeSubmode m).getD s0
        let w2 := setActiveSubmode m sub w1
        do
          let w3 ← activate fuel sub w2
          pure (baseActivate m w3)
    else
      pure (baseActivate m w)

/-- `mode.deactivate(manager)` with dynamic dispatch: `BaseMulti.deactivate`
(`mode.py` lines 394-399) for multis, else `BaseMode.deactivate`. -/
def deactivate : Nat → Nat → MW → Except PyErr MW
  | 0, _, _ => .error .outOfFuel
  | fuel+1, m, w =>
    if w.isMulti m then do
      let w1 ← deactivateSubmode fuel m false w
      pure (baseDeactivate m w1)
    else
      pure (baseDeactivate m w)

/-- `BaseMulti._deactivate_submode` (`mode.py` lines 369-377): when a
submode is active and the multi itself is active, deactivate the submode
through the manager (`AttributeError` if `manager` is `None`); optionally
clear the remembered submode. -/
def deactivateSubmode : Nat → Nat → Bool → MW → Except PyErr MW
  | 0, _, _, _ => .error .outOfFuel
  | fuel+1, m, clear, w =>
    match w.activeSubmode m with
    | none => pure w
    | some sub => do
      let w1 ←
        if w.active m then
          if w.hasManager m then deactivate fuel sub w
          else .error .attributeError
        else pure w
      pure (if clear then clearSubnode m w1 else w1)

/-- `BaseMulti._activate_submode` (`mode.py` lines 344-362).  With Python
assertions enabled, `assert submode in self.submodes` fails whenever
`submode` is `None`, so the source's final branch that would remove the
multi from its manager is unreachable; the `none` case therefore returns
`assertionError` here. -/
def activateSubmode : Nat → Nat → Option Nat → MW → Except PyErr MW
  | 0, _, _, _ => .error .outOfFuel
  | fuel+1, m, sub, w =>
    if w.activeSubmode m = sub then pure w
    else
      match sub with
      | none => .error .assertionError
      | some s =>
        if s ∈ w.submodes m then do
          let w1 ← deactivateSubmode fuel m true w
          let w2 := setActiveSubmode m s w1
          if w2.active m then
            if w2.hasManager m then activate fuel s w2
            else .error .attributeError
          else pure w2
        else .error .assertionError

/-- `BaseManager.pop_mode` (`mode.py` lines 97-110): pop the top mode
(`IndexError` on an empty stack), deactivate it, then activate the new top
if any, else invoke `on_last_mode_pop`; return the popped mode. -/
def popMode : Nat → MW → Except PyErr (Nat × MW)
  | 0, _ => .error .outOfFuel
  | fuel+1, w =>
    match w.stack.getLast? with
    | none => .error .indexError
    | some top =>
      let w1 := { w with stack := w.stack.dropLast }
      do
        let w2 ← deactivate fuel top w1
        match w2.stack.getLast? with
        | some cur => do
          let w3 ← activate fuel cur w2
          pure (top, w3)
        | none => pure (top, pushEv (.onLastModePop top) w2)

/-- `BaseManager.remove_mode` (`mode.py` lines 126-139): pop when the mode
is current, else silently remove its first stack occurrence if present. -/
def removeMode : Nat → Nat → MW → Except PyErr MW
  | 0, _, _ => .error .outOfFuel
  | fuel+1, m, w =>
    if currentMode w = some m then do
      let (_, w1) ← popMode fuel w
      pure w1
    else
      pure { w with stack := w.stack.erase m }

end

/-- `BaseManager.push_mode` (`mode.py` lines 86-95): deactivate the current
mode if any, append the new mode, activate it. -/
def pushMode (fuel : Nat) (m : Nat) (w : MW) : Except PyErr MW := do
  let w1 ←
    match currentMode w with
    | some cur => deactivate fuel cur w
    | none => pure w
  activate fuel m { w1 with stack := w1.stack ++ [m] }

/-- `BaseManager.swap_modes` (`mode.py` lines 112-124): pop and deactivate
the top mode without reactivating the one beneath it and without the
`on_last_mode_pop` hook, then push and activate the new mode; return the
replaced mode. -/
def swapModes (fuel : Nat) (m : Nat) (w : MW) : Except PyErr (Nat × MW) :=
  match w.stack.getLast? with
  | none => .error .indexError
  | some old =>
    let w1 := { w with stack := w.stack.dropLast }
    do
      let w2 ← deactivate fuel old w1
      let w3 ← activate fuel m { w2 with stack := w2.stack ++ [m] }
      pure (old, w3)

/-- `BaseMulti.activate_next` (`mode.py` lines 278-308): assert there are
submodes; pick the first submode when none is active, else the one after
the active submode, wrapping to the first when `loop` is set and otherwise
selecting `None`; then `_activate_submode` the pick and return it.
`list.index` raises `ValueError` when the active submode is not listed. -/
def activateNext (fuel : Nat) (m : Nat) (loop : Bool) (w : MW) :
    Except PyErr (Option Nat × MW) :=
  if w.submodes m = [] then .error .assertionError
  else do
    let next : Option Nat ←
      match w.activeSubmode m with
      | none => pure (w.submodes m).head?
      | some last =>
        match (w.submodes m).findIdx? (fun x => x == last) with
        | none => .error .valueError
        | some i =>
          if i + 1 < (w.submodes m).length then pure ((w.submodes m).get? (i+1))
          else if loop then pure (w.submodes m).head?
          else pure none
    let w1 ← activateSubmode fuel m next w
    pure (next, w1)

/-- The tail of `BaseMulti.remove_submode` past the target-selection lines:
call `activate_next()`, remove the target from the submode list
(`list.remove` raises `ValueError` when it is absent, in particular when
the target is `None`), and if the activated next mode is the removed one,
remove the multi from its manager when bound and deactivate the submode. -/
def removeSubmodeBody (fuel : Nat) (m : Nat) (target : Option Nat) (w : MW) :
    Except PyErr MW := do
  let (next, w1) ← activateNext fuel m true w
  let w2 ←
    match target with
    | some t =>
      if t ∈ w1.submodes m then
        pure { w1 with submodes := Function.update w1.submodes m ((w1.submodes m).erase t) }
      else .error .valueError
    | none => .error .valueError
  if next = target then do
    let w3 ← if w2.hasManager m then removeMode fuel m w2 else pure w2
    deactivateSubmode fuel m true w3
  else pure w2

/-- `BaseMulti.remove_submode` (`mode.py` lines 234-253): an omitted target
defaults to the active submode (with no membership check), while an
explicitly passed mode that is not a submode makes the call a no-op. -/
def removeSubmode (fuel : Nat) (m : Nat) (arg : Option Nat) (w : MW) :
    Except PyErr MW :=
  match arg with
  | some t =>
    if t ∈ w.submodes m then removeSubmodeBody fuel m (some t) w else pure w
  | none => removeSubmodeBody fuel m (w.activeSubmode m) w

/-! Lemmas and claim theorems. -/

theorem runSystems_spec (dt : Int) (l : List Nat) : ∀ w : CEM,
    (runSystems dt l w).time = w.time ∧
    (runSystems dt l w).sysEvents = w.sysEvents ++ l.map (fun s => (s, dt)) ∧
    (runSystems dt l w).systems = w.systems ∧
    (runSystems dt l w).entities = w.entities := by
  induction l with
  | nil => intro w; simp [runSystems]
  | cons s rest ih =>
    intro w
    obtain ⟨h1, h2, h3, h4⟩ := ih { w with sysEvents := w.sysEvents ++ [(s, dt)] }
    refine ⟨?_, ?_, ?_, ?_⟩ <;> simp only [runSystems, h1, h2, h3, h4, List.map_cons]
    simp

/-- C8: one call to the scheduler step `run(dt)` adds `dt` to the manager
clock and then invokes each registered system's per-step operation exactly
once, synchronously, in registration order, passing the same `dt` to each
(the appended trace is exactly the registration-ordered list of systems
paired with `dt`). -/
theorem run_step_spec (w : CEM) (dt : Int) :
    (run w dt).time = w.time + dt ∧
    (run w dt).sysEvents = w.sysEvents ++ w.systems.map (fun s => (s, dt)) ∧
    (run w dt).systems = w.systems ∧
    (run w dt).entities = w.entities := by
  unfold run
  obtain ⟨h1, h2, h3, h4⟩ := runSystems_spec dt w.systems { w with time := w.time + dt }
  exact ⟨by rw [h1], by rw [h2], h3, h4⟩

/-- C9: activation of a (plain) mode is idempotent: when the `active` flag
is already set, `activate` changes nothing and invokes no hook; when it is
clear, `activate` invokes `on_activate`, records the owning manager and
sets the flag. -/
theorem mode_activate_idempotent (fuel m : Nat) (w : MW) (hm : w.isMulti m = false) :
    (w.active m = true → activate (fuel+1) m w = .ok w) ∧
    (w.active m = false → activate (fuel+1) m w =
      .ok { w with
              events := w.events ++ [.onActivate m],
              hasManager := Function.update w.hasManager m true,
              active := Function.update w.active m true }) := by
  refine ⟨fun h => ?_, fun h => ?_⟩ <;>
    simp only [activate, baseActivate, pushEv, hm, h, Bool.false_eq_true, if_false,
      if_true, ite_false, ite_true] <;> rfl

/-- Concrete world for the C9 witness: one plain active mode on the stack. -/
def wC9 : MW :=
  { stack := [1], active := fun m => m == 1, hasManager := fun m => m == 1,
    isMulti := fun _ => false, submodes := fun _ => [], activeSubmode := fun _ => none,
    stepRate := fun _ => some 1, events := [] }

theorem mode_activate_idempotent_witness :
    wC9.isMulti 1 = false ∧ wC9.active 1 = true ∧ activate 3 1 wC9 = .ok wC9 :=
  ⟨rfl, rfl, (mode_activate_idempotent 2 1 wC9 rfl).1 rfl⟩

/-- Concrete world for C5: multi `0` with submodes `[1, 2, 3]`, active, on
the manager stack, with the last submode `3` active. -/
def wC5 : MW :=
  { stack := [0], active := fun m => m == 0 || m == 3,
    hasManager := fun m => m == 0 || m == 3,
    isMulti := fun m => m == 0,
    submodes := fun m => if m == 0 then [1, 2, 3] else [],
    activeSubmode := fun m => if m == 0 then some 3 else none,
    stepRate := fun _ => some 1, events := [] }

/-- Concrete world for C5: the same multi in its initial inactive state. -/
def wC5i : MW :=
  { wC5 with active := fun _ => false, activeSubmode := fun _ => none,
             hasManager := fun _ => false }

/-- C5: evaluation of `activate_next` on the embedded code.  With the last
submode active and `loop=False`, the source raises `AssertionError` at
`assert submode in self.submodes` in `_activate_submode` (the submode being
`None`) instead of removing the composite from its manager as its
documentation states; with `loop=True` it wraps to the first submode, and
from the initial inactive state it selects the first submode (its manager
activation deferred). -/
theorem activate_next_no_loop_bug :
    activateNext 9 0 false wC5 = .error .assertionError ∧
    (activateNext 9 0 true wC5).map
      (fun p => (p.1, p.2.activeSubmode 0, p.2.active 1, p.2.active 3, p.2.events)) =
      .ok (some 1, some 1, true, false, [.onDeactivate 3, .onActivate 1]) ∧
    (activateNext 9 0 true wC5i).map
      (fun p => (p.1, p.2.activeSubmode 0, p.2.events)) = .ok (some 1, some 1, []) :=
  ⟨rfl, rfl, rfl⟩

/-- Concrete world for C6 (failing input): multi `0`, inactive, submodes
`[1]` and no active submode. -/
def wC6 : MW :=
  { stack := [], active := fun _ => false, hasManager := fun _ => false,
    isMulti := fun m => m == 0,
    submodes := fun m => if m == 0 then [1] else [],
    activeSubmode := fun _ => none, stepRate := fun _ => some 1, events := [] }

/-- Concrete world for C6 (single-submode scenario): multi `0` active and on
the stack, with its only submode `1` active. -/
def wC6b : MW :=
  { stack := [0], active := fun m => m == 0 || m == 1,
    hasManager := fun m => m == 0 || m == 1,
    isMulti := fun m => m == 0,
    submodes := fun m => if m == 0 then [1] else [],
    activeSubmode := fun m => if m == 0 then some 1 else none,
    stepRate := fun _ => some 1, events := [] }

/-- C6: evaluation of `remove_submode` on the embedded code.  On a composite
with no active submode, `remove_submode()` defaults its target to `None`,
skips the membership check, and `submodes.remove(None)` raises `ValueError`
instead of the documented no-op.  On a composite whose only submode is
active, `remove_submode()` removes the submode, removes the composite from
its manager and clears the active submode; an explicitly passed non-member
target is a no-op. -/
theorem remove_submode_bug :
    removeSubmode 9 0 none wC6 = .error .valueError ∧
    (removeSubmode 9 0 none wC6b).map
      (fun w => (w.stack, w.submodes 0, w.activeSubmode 0, w.active 0, w.active 1, w.events)) =
      .ok ([], [], none, false, false, [.onDeactivate 1, .onDeactivate 0, .onLastModePop 0]) ∧
    removeSubmode 9 0 (some 5) wC6b = .ok wC6b :=
  ⟨rfl, rfl, rfl⟩

theorem find?_map_replace (entries : List (String × Nat)) (name : String) (v : Nat)
    (h : entries.any (fun p => p.1 == name) = true) :
    ((entries.map (fun p => if p.1 == name then (p.1, v) else p)).find?
      (fun p => p.1 == name)).map Prod.snd = some v := by
  induction entries with
  | nil => simp at h
  | cons p rest ih =>
    by_cases hp : p.1 = name
    · simp [hp]
    · have hb : (p.1 == name) = false := by simp [hp]
      simp only [List.any_cons, hb, Bool.false_or] at h
      rw [List.map_cons, if_neg (by simp [hb] : ¬ ((p.1 == name) = true)),
        List.find?_cons_of_neg _ (by simp [hb])]
      exact ih h

theorem dictGet_dictSet_self (entries : List (String × Nat)) (name : String) (v : Nat) :
    dictGet (dictSet entries name v) name = some v := by
  unfold dictSet dictGet
  by_cases h : entries.any (fun p => p.1 == name) = true
  · rw [if_pos h]; exact find?_map_replace entries name v h
  · rw [if_neg h, List.find?_append]
    have hn : entries.find? (fun p => p.1 == name) = none := by
      rw [List.find?_eq_none]
      intro x hx hbe
      exact h (List.any_eq_true.mpr ⟨x, hx, hbe⟩)
    rw [hn]
    simp

theorem dictGet_dictSet_ne (entries : List (String × Nat)) (name n : String) (v : Nat)
    (hne : n ≠ name) :
    dictGet (dictSet entries name v) n = dictGet entries n := by
  unfold dictSet dictGet
  by_cases h : entries.any (fun p => p.1 == name) = true
  · rw [if_pos h]
    clear h
    induction entries with
    | nil => rfl
    | cons p rest ih =>
      by_cases hp : p.1 = name
      · have h1 : ¬ (((p.1, v) : String × Nat).1 == n) = true := by
          simp [hp]; exact fun hc => hne hc.symm
        have h2 : ¬ ((p.1 == n) = true) := by
          simp [hp]; exact fun hc => hne hc.symm
        rw [List.map_cons, if_pos (by simp [hp] : (p.1 == name) = true),
          List.find?_cons_of_neg (p := fun q : String × Nat => q.1 == n) _ h1,
          List.find?_cons_of_neg (p := fun q : String × Nat => q.1 == n) _ h2]
        exact ih
      · have hb : ¬ ((p.1 == name) = true) := by simp [hp]
        by_cases hpn : p.1 = n
        · rw [List.map_cons, if_neg hb,
            List.find?_cons_of_pos (p := fun q : String × Nat => q.1 == n) _ (by simp [hpn]),
            List.find?_cons_of_pos (p := fun q : String × Nat => q.1 == n) _ (by simp [hpn])]
        · rw [List.map_cons, if_neg hb,
            List.find?_cons_of_neg (p := fun q : String × Nat => q.1 == n) _ (by simp [hpn]),
            List.find?_cons_of_neg (p := fun q : String × Nat => q.1 == n) _ (by simp [hpn])]
          exact ih
  · rw [if_neg h, List.find?_append]
    cases hf : entries.find? (fun p => p.1 == n) with
    | some q => simp [hf]
    | none =>
      have hb2 : (name == n) = false := beq_eq_false_iff_ne.mpr (fun hc => hne hc.symm)
      simp [hf, List.find?, hb2]

theorem cmFold_events (hasSM : Nat → Bool) (comps : List (String × Nat)) :
    ∀ st : List (String × Nat) × List Nat,
      (comps.foldl (fun st p => cmSetItem hasSM st p.1 p.2) st).2 =
        st.2 ++ (comps.map Prod.snd).filter hasSM := by
  induction comps with
  | nil => intro st; simp
  | cons p rest ih =>
    intro st
    rw [List.foldl_cons, ih]
    unfold cmSetItem
    by_cases hp : hasSM p.2 <;> simp [hp, List.filter_cons]

/-- C10: registering a component under an already-bound name silently
replaces the previous binding (`dict.__setitem__`, no error possible),
other names are untouched, and every registration, including each
constructor-supplied component of `ComponentMap.__init__`, invokes the new
component's `set_manager` hook exactly when it defines one. -/
theorem component_map_setitem_spec (hasSM : Nat → Bool) (entries : List (String × Nat))
    (evs : List Nat) (name : String) (old comp : Nat)
    (_hold : dictGet entries name = some old) :
    dictGet (cmSetItem hasSM (entries, evs) name comp).1 name = some comp ∧
    (∀ n, n ≠ name → dictGet (cmSetItem hasSM (entries, evs) name comp).1 n = dictGet entries n) ∧
    (cmSetItem hasSM (entries, evs) name comp).2 =
      evs ++ (if hasSM comp then [comp] else []) ∧
    (∀ comps : List (String × Nat),
      (cmInit hasSM comps).2 = (comps.map Prod.snd).filter hasSM) := by
  refine ⟨dictGet_dictSet_self entries name comp,
    fun n hn => dictGet_dictSet_ne entries name n comp hn, rfl, fun comps => ?_⟩
  unfold cmInit
  rw [cmFold_events]
  rfl

theorem component_map_setitem_witness :
    dictGet [("position", 7)] "position" = some 7 ∧
    dictGet (cmSetItem (fun c => c == 8) ([("position", 7)], []) "position" 8).1 "position" =
      some 8 ∧
    (cmSetItem (fun c => c == 8) ([("position", 7)], []) "position" 8).2 = [8] :=
  ⟨rfl,
    (component_map_setitem_spec (fun c => c == 8) [("position", 7)] [] "position" 7 8 rfl).1,
    by
      have h := (component_map_setitem_spec (fun c => c == 8) [("position", 7)] []
        "position" 7 8 rfl).2.2.1
      simpa using h⟩

theorem find?_filter_ne (recs : List (Nat × Nat)) (id e : Nat) (h : e ≠ id) :
    (recs.filter (fun p => p.1 != id)).find? (fun p => p.1 == e) =
      recs.find? (fun p => p.1 == e) := by
  induction recs with
  | nil => rfl
  | cons p rest ih =>
    rw [List.filter_cons]
    by_cases hp : p.1 = id
    · have hbe : ¬ ((p.1 == e) = true) := by
        simp [hp]; exact fun hc => h hc.symm
      rw [if_neg (by simp [hp]),
        List.find?_cons_of_neg (p := fun q : Nat × Nat => q.1 == e) _ hbe]
      exact ih
    · by_cases hpe : p.1 = e
      · rw [if_pos (by simp [hp]),
          List.find?_cons_of_pos (p := fun q : Nat × Nat => q.1 == e) _ (by simp [hpe]),
          List.find?_cons_of_pos (p := fun q : Nat × Nat => q.1 == e) _ (by simp [hpe])]
      · rw [if_pos (by simp [hp]),
          List.find?_cons_of_neg (p := fun q : Nat × Nat => q.1 == e) _ (by simp [hpe]),
          List.find?_cons_of_neg (p := fun q : Nat × Nat => q.1 == e) _ (by simp [hpe])]
        exact ih

theorem getRec_delRec_ne (s : Store) (id e : Nat) (h : e ≠ id) :
    (s.delRec id).getRec e = s.getRec e := by
  unfold Store.delRec Store.getRec
  rw [find?_filter_ne s.recs id e h]

theorem delRec_not_contains (s : Store) (id : Nat) : ¬ (s.delRec id).containsId id := by
  unfold Store.delRec Store.containsId Store.keys
  simp only [List.mem_map, List.mem_filter, not_exists]
  rintro p ⟨⟨hmem, hne⟩, heq⟩
  simp [heq] at hne

/-- C1: removing a live entity deletes its record from every registered
component store (stores lacking a record are no error), removes it from the
live set, keeps every other entity and every other record intact, and keeps
the set of registered store names; afterwards neither the manager nor any
registered store contains the id.  Removing a non-live entity raises
`KeyError` and returns the state unchanged (the membership test precedes
every mutation in the source, so the failure is atomic). -/
theorem remove_entity_spec (w : CEM) (id : Nat) :
    (cemContains w id →
      ∃ w', delItem w id = (w', none) ∧
        ¬ cemContains w' id ∧
        (∀ p ∈ w'.componentMap, ¬ p.2.containsId id) ∧
        (∀ e, e ≠ id → (cemContains w' e ↔ cemContains w e)) ∧
        w'.componentMap.map Prod.fst = w.componentMap.map Prod.fst ∧
        (∀ nm st, (nm, st) ∈ w.componentMap →
          ∃ st', (nm, st') ∈ w'.componentMap ∧
            ∀ e, e ≠ id → st'.getRec e = st.getRec e)) ∧
    (¬ cemContains w id → delItem w id = (w, some .keyError)) := by
  constructor
  · intro hmem
    unfold cemContains at hmem
    refine ⟨_, by rw [delItem, if_pos hmem], ?_, ?_, ?_, ?_, ?_⟩
    · simp [cemContains, List.mem_filter]
    · intro p hp
      obtain ⟨nc, _, rfl⟩ := List.mem_map.mp hp
      exact delRec_not_contains nc.2 id
    · intro e he
      simp [cemContains, List.mem_filter, bne_iff_ne, he]
    · rw [List.map_map]
      exact List.map_congr_left fun a _ => rfl
    · intro nm st hst
      exact ⟨st.delRec id, List.mem_map.mpr ⟨(nm, st), hst, rfl⟩,
        fun e he => getRec_delRec_ne st id e he⟩
  · intro hnm
    unfold cemContains at hnm
    rw [delItem, if_neg hnm]

/-- Concrete manager for the C1 witness: stores `A` and `B` both holding a
record for entity `2`, which is live. -/
def wC1 : CEM :=
  { componentMap := [("A", ⟨[(2, 10), (3, 11)]⟩), ("B", ⟨[(2, 20)]⟩)],
    entities := [2, 3], systems := [], nextId := 3, time := 0, sysEvents := [] }

theorem remove_entity_witness :
    cemContains wC1 2 ∧
    (∃ w', delItem wC1 2 = (w', none) ∧
      ¬ cemContains w' 2 ∧
      (∀ p ∈ w'.componentMap, ¬ p.2.containsId 2) ∧
      (∀ e, e ≠ 2 → (cemContains w' e ↔ cemContains wC1 e)) ∧
      w'.componentMap.map Prod.fst = wC1.componentMap.map Prod.fst ∧
      (∀ nm st, (nm, st) ∈ wC1.componentMap →
        ∃ st', (nm, st') ∈ w'.componentMap ∧
          ∀ e, e ≠ 2 → st'.getRec e = st.getRec e)) :=
  ⟨by decide, (remove_entity_spec wC1 2).1 (by decide)⟩

theorem runOps_spec (ops : List Op) : ∀ w : CEM,
    (∀ e ∈ w.entities, e ≤ w.nextId) → w.entities.Nodup →
    (runOps w ops).2 = List.range' (w.nextId + 1) (countNew ops) ∧
    (runOps w ops).1.nextId = w.nextId + countNew ops ∧
    (∀ e ∈ (runOps w ops).1.entities, e ≤ (runOps w ops).1.nextId) ∧
    (runOps w ops).1.entities.Nodup := by
  induction ops with
  | nil =>
    intro w hb hd
    exact ⟨rfl, rfl, hb, hd⟩
  | cons op rest ih =>
    intro w hb hd
    cases op with
    | newEntity =>
      have hfresh : w.nextId + 1 ∉ w.entities := fun hm => by
        have := hb _ hm; omega
      have hw1b : ∀ e ∈ w.entities ++ [w.nextId + 1], e ≤ w.nextId + 1 := by
        intro e he
        rcases List.mem_append.mp he with h | h
        · exact Nat.le_succ_of_le (hb e h)
        · simp at h; omega
      have hw1d : (w.entities ++ [w.nextId + 1]).Nodup := by
        rw [List.nodup_append]
        exact ⟨hd, List.nodup_singleton _, fun a ha hb' => by simp at hb'; subst hb'; exact hfresh ha⟩
      obtain ⟨ih1, ih2, ih3, ih4⟩ :=
        ih { w with nextId := w.nextId + 1, entities := w.entities ++ [w.nextId + 1] } hw1b hw1d
      have hset : setAdd w.entities (w.nextId + 1) = w.entities ++ [w.nextId + 1] := by
        rw [setAdd, if_neg hfresh]
      refine ⟨?_, ?_, ?_, ?_⟩
      · simp only [runOps, applyOp, newEntity, countNew, hset, ih1]
        rw [List.range'_succ, List.singleton_append]
      · simp only [runOps, applyOp, newEntity, countNew, hset, ih2]
        omega
      · simp only [runOps, applyOp, newEntity, hset]
        exact ih3
      · simp only [runOps, applyOp, newEntity, hset]
        exact ih4
    | remove id =>
      by_cases hm : id ∈ w.entities
      · have hw1b : ∀ e ∈ w.entities.filter (fun e => e != id), e ≤ w.nextId := by
          intro e he
          exact hb e (List.mem_of_mem_filter he)
        have hw1d : (w.entities.filter (fun e => e != id)).Nodup := hd.filter _
        obtain ⟨ih1, ih2, ih3, ih4⟩ :=
          ih { w with
                componentMap := w.componentMap.map (fun nc => (nc.1, nc.2.delRec id)),
                entities := w.entities.filter (fun e => e != id) } hw1b hw1d
        refine ⟨?_, ?_, ?_, ?_⟩ <;>
          simp only [runOps, applyOp, delItem, if_pos hm, countNew, List.nil_append]
        · exact ih1
        · exact ih2
        · exact ih3
        · exact ih4
      · obtain ⟨ih1, ih2, ih3, ih4⟩ := ih w hb hd
        refine ⟨?_, ?_, ?_, ?_⟩ <;>
          simp only [runOps, applyOp, delItem, if_neg hm, countNew, List.nil_append]
        · exact ih1
        · exact ih2
        · exact ih3
        · exact ih4

/-- C2: over any history of `new_entity` and `remove` operations starting
from a fresh manager, the sequence of issued identities is exactly
`1, 2, …, k` (strictly increasing from 1, each issued exactly once, hence
never reissued even after its entity is removed), and at every intermediate
point the live set holds no duplicate identity. -/
theorem new_entity_monotonic (cm : List (String × Store)) (systems : List Nat)
    (ops : List Op) :
    (runOps (initCEM cm systems) ops).2 = List.range' 1 (countNew ops) ∧
    (runOps (initCEM cm systems) ops).2.Nodup ∧
    List.Pairwise (· < ·) (runOps (initCEM cm systems) ops).2 ∧
    (∀ n : Nat, (runOps (initCEM cm systems) (ops.take n)).1.entities.Nodup) := by
  have hinit : ∀ e ∈ (initCEM cm systems).entities, e ≤ (initCEM cm systems).nextId := by
    intro e he; simp [initCEM] at he
  have hd : (initCEM cm systems).entities.Nodup := List.nodup_nil
  obtain ⟨h1, _, _, _⟩ := runOps_spec ops (initCEM cm systems) hinit hd
  refine ⟨h1, ?_, ?_, ?_⟩
  · rw [h1]; exact List.nodup_range' _ _
  · rw [h1]; exact List.pairwise_lt_range' _ _
  · intro n
    exact (runOps_spec (ops.take n) (initCEM cm systems) hinit hd).2.2.2

theorem mem_narrow_foldl (rest : List Store) : ∀ (acc : List Nat) (id : Nat),
    id ∈ rest.foldl (fun acc s => acc.filter (fun id => id ∈ s.keys)) acc ↔
      id ∈ acc ∧ ∀ s ∈ rest, id ∈ s.keys := by
  induction rest with
  | nil => simp
  | cons s rs ih =>
    intro acc id
    rw [List.foldl_cons, ih]
    simp only [List.mem_filter, decide_eq_true_eq, List.mem_cons]
    constructor
    · rintro ⟨⟨h1, h2⟩, h3⟩
      exact ⟨h1, fun s' hs' => by rcases hs' with rfl | hs'; exact h2; exact h3 s' hs'⟩
    · rintro ⟨h1, h2⟩
      exact ⟨⟨h1, h2 s (Or.inl rfl)⟩, fun s' hs' => h2 s' (Or.inr hs')⟩

theorem mem_narrowIds (s0 : Store) (rest : List Store) (id : Nat) :
    id ∈ narrowIds s0 rest ↔ id ∈ s0.keys ∧ ∀ s ∈ rest, id ∈ s.keys := by
  unfold narrowIds
  exact mem_narrow_foldl rest s0.keys id

theorem getRec_of_mem_keys (s : Store) (id : Nat) (h : id ∈ s.keys) :
    ∃ r, s.getRec id = some r ∧ (id, r) ∈ s.recs := by
  unfold Store.getRec
  have hs : (s.recs.find? (fun p => p.1 == id)).isSome := by
    rw [List.find?_isSome]
    obtain ⟨p, hp, he⟩ := List.mem_map.mp h
    exact ⟨p, hp, by simp [he]⟩
  obtain ⟨q, hq⟩ := Option.isSome_iff_exists.mp hs
  have hqm := List.mem_of_find?_eq_some hq
  have hqe : q.1 = id := by simpa using List.find?_some hq
  refine ⟨q.2, by rw [hq]; rfl, ?_⟩
  rw [← hqe]
  simpa using hqm

/-- C3: for a non-empty list of component names that are all registered, the
cross-component query yields rows for exactly the ids in the intersection of
the named stores' key sets, computed by narrowing the first store's key set
against each subsequent store; each row lists the records of the requested
stores in query-argument order, and every requested store holds a record for
every yielded id (no id missing from any requested store is yielded). -/
theorem iter_components_spec (cm : List (String × Store)) (names : List String)
    (stores : List Store) (hne : names ≠ [])
    (hlk : names.mapM (lookupStore cm) = .ok stores) :
    ∃ ids : List Nat,
      iterComponents cm names =
        .ok (ids.map (fun id => stores.map (fun s => s.getRec id))) ∧
      (∀ id, id ∈ ids ↔ ∀ s ∈ stores, id ∈ s.keys) ∧
      (∀ id ∈ ids, ∀ s ∈ stores, ∃ r, s.getRec id = some r ∧ (id, r) ∈ s.recs) := by
  match names with
  | [] => exact absurd rfl hne
  | nm :: ns =>
    rw [List.mapM_cons] at hlk
    cases hl0 : lookupStore cm nm with
    | error e => rw [hl0] at hlk; simp [Bind.bind, Except.bind] at hlk
    | ok s0 =>
      rw [hl0] at hlk
      cases hls : ns.mapM (lookupStore cm) with
      | error e => rw [hls] at hlk; simp [Bind.bind, Except.bind, Functor.map, Except.map] at hlk
      | ok rest =>
        rw [hls] at hlk
        simp only [Bind.bind, Except.bind, Functor.map, Except.map, pure, Except.pure,
          Except.ok.injEq] at hlk
        subst hlk
        refine ⟨narrowIds s0 rest, ?_, ?_, ?_⟩
        · unfold iterComponents
          rw [List.mapM_cons, hl0, hls]
          rfl
        · intro id
          rw [mem_narrowIds]
          constructor
          · rintro ⟨h1, h2⟩ s hs
            rcases List.mem_cons.mp hs with rfl | hs'
            · exact h1
            · exact h2 s hs'
          · intro h
            exact ⟨h s0 (List.mem_cons_self _ _), fun s hs => h s (List.mem_cons_of_mem _ hs)⟩
        · intro id hid s hs
          have hkeys := (mem_narrowIds s0 rest id).mp hid
          apply getRec_of_mem_keys
          rcases List.mem_cons.mp hs with rfl | hs'
          · exact hkeys.1
          · exact hkeys.2 s hs'

/-- Concrete stores for the C3 witness: store `A` holding ids `{1, 2, 3}`
and store `B` holding ids `{2, 3, 4}`. -/
def cmC3 : List (String × Store) :=
  [("A", ⟨[(1, 10), (2, 11), (3, 12)]⟩), ("B", ⟨[(2, 20), (3, 21), (4, 22)]⟩)]

theorem iter_components_witness :
    (["A", "B"] ≠ ([] : List String)) ∧
    ["A", "B"].mapM (lookupStore cmC3) =
      .ok [⟨[(1, 10), (2, 11), (3, 12)]⟩, ⟨[(2, 20), (3, 21), (4, 22)]⟩] ∧
    ∃ ids : List Nat,
      iterComponents cmC3 ["A", "B"] =
        .ok (ids.map (fun id =>
          ([⟨[(1, 10), (2, 11), (3, 12)]⟩, ⟨[(2, 20), (3, 21), (4, 22)]⟩] : List Store).map
            (fun s => s.getRec id))) ∧
      (∀ id, id ∈ ids ↔
        ∀ s ∈ ([⟨[(1, 10), (2, 11), (3, 12)]⟩, ⟨[(2, 20), (3, 21), (4, 22)]⟩] : List Store),
          id ∈ s.keys) ∧
      (∀ id ∈ ids,
        ∀ s ∈ ([⟨[(1, 10), (2, 11), (3, 12)]⟩, ⟨[(2, 20), (3, 21), (4, 22)]⟩] : List Store),
          ∃ r, s.getRec id = some r ∧ (id, r) ∈ s.recs) :=
  ⟨by simp, by rfl,
    iter_components_spec cmC3 ["A", "B"]
      [⟨[(1, 10), (2, 11), (3, 12)]⟩, ⟨[(2, 20), (3, 21), (4, 22)]⟩] (by simp) (by rfl)⟩

/-- C4: on a stack of plain modes, `pop_mode` fails with the empty-stack
error (`IndexError` from `list.pop`, the spec's `EmptyStackError`) when the
stack is empty; on a non-empty stack it removes and deactivates the top
mode, then activates the new top when one remains and otherwise invokes
`on_last_mode_pop` with the popped mode, returning the popped mode. -/
theorem pop_mode_spec (fuel : Nat) (w : MW) (hsimple : ∀ m, w.isMulti m = false) :
    (w.stack = [] → popMode (fuel+2) w = .error .indexError) ∧
    (∀ s t, w.stack = s ++ [t] →
      (∀ c, s.getLast? = some c → c ≠ t ∧ w.active c = false) →
      ∃ w', popMode (fuel+2) w = .ok (t, w') ∧
        w'.stack = s ∧
        w'.active t = false ∧
        ((s = [] ∧ w'.events = w.events ++ [.onDeactivate t, .onLastModePop t]) ∨
         (∃ c, s.getLast? = some c ∧ w'.active c = true ∧
           w'.events = w.events ++ [.onDeactivate t, .onActivate c]))) := by
  constructor
  · intro h
    simp [popMode, h]
  · intro s t hst hbelow
    simp only [popMode, hst, List.getLast?_concat, List.dropLast_concat]
    simp only [deactivate, hsimple, Bool.false_eq_true, if_false, baseDeactivate, pushEv]
    simp only [Bind.bind, Except.bind, pure, Except.pure]
    cases hs : s.getLast? with
    | none =>
      have hsnil : s = [] := List.getLast?_eq_none_iff.mp hs
      simp only [hs]
      refine ⟨_, rfl, rfl, by simp, Or.inl ⟨hsnil, by simp⟩⟩
    | some c =>
      obtain ⟨hct, hca⟩ := hbelow c hs
      simp only [hs]
      simp only [activate, hsimple, Bool.false_eq_true, if_false, baseActivate,
        Function.update_noteq hct, hca, pushEv, Bind.bind, Except.bind, pure, Except.pure]
      refine ⟨_, rfl, rfl, ?_, Or.inr ⟨c, rfl, ?_, ?_⟩⟩
      · simp [Function.update_noteq (Ne.symm hct), Function.update_same]
      · simp [Function.update_same]
      · simp

/-- C7: on a non-empty stack of plain modes, `swap_modes` deactivates and
removes the top mode, pushes and activates the new mode in its place, and
returns the removed mode; the mode beneath the old top is not activated,
`on_last_mode_pop` is never invoked (the event trace gains exactly the
deactivation of the old top and the activation of the new mode), and the
rest of the stack and the other modes' flags are unchanged. -/
theorem swap_modes_spec (fuel : Nat) (w : MW) (n : Nat) (hsimple : ∀ m, w.isMulti m = false) :
    ∀ s t, w.stack = s ++ [t] → n ≠ t → w.active n = false →
    ∃ w', swapModes (fuel+1) n w = .ok (t, w') ∧
      w'.stack = s ++ [n] ∧
      w'.active t = false ∧
      w'.active n = true ∧
      (∀ c, c ≠ t → c ≠ n → w'.active c = w.active c) ∧
      w'.events = w.events ++ [.onDeactivate t, .onActivate n] := by
  intro s t hst hnt hna
  simp only [swapModes, hst, List.getLast?_concat, List.dropLast_concat]
  simp only [deactivate, hsimple, Bool.false_eq_true, if_false, baseDeactivate, pushEv,
    Bind.bind, Except.bind, pure, Except.pure]
  simp only [activate, hsimple, Bool.false_eq_true, if_false, baseActivate, pushEv,
    Function.update_noteq hnt, hna]
  refine ⟨_, rfl, rfl, ?_, ?_, ?_, ?_⟩
  · simp [Function.update_noteq (Ne.symm hnt), Function.update_same]
  · simp [Function.update_same]
  · intro c hct hcn
    simp [Function.update_noteq hct, Function.update_noteq hcn]
  · simp

/-- Concrete world for the C4 witness: the state reached by pushing mode `1`
and then mode `2` onto an empty manager. -/
def wC4 : MW :=
  { stack := [1, 2], active := fun m => m == 2, hasManager := fun m => m == 1 || m == 2,
    isMulti := fun _ => false, submodes := fun _ => [], activeSubmode := fun _ => none,
    stepRate := fun _ => some 1, events := [] }

theorem pop_mode_witness :
    (∀ m, wC4.isMulti m = false) ∧ wC4.stack = [1] ++ [2] ∧
    (∀ c, ([1] : List Nat).getLast? = some c → c ≠ 2 ∧ wC4.active c = false) ∧
    (∃ w', popMode 5 wC4 = .ok (2, w') ∧
      w'.stack = [1] ∧
      w'.active 2 = false ∧
      ((([1] : List Nat) = [] ∧
          w'.events = wC4.events ++ [.onDeactivate 2, .onLastModePop 2]) ∨
       (∃ c, ([1] : List Nat).getLast? = some c ∧ w'.active c = true ∧
          w'.events = wC4.events ++ [.onDeactivate 2, .onActivate c]))) :=
  ⟨fun _ => rfl, rfl, fun c hc => by cases hc; exact ⟨by decide, rfl⟩,
    (pop_mode_spec 3 wC4 (fun _ => rfl)).2 [1] 2 rfl
      (fun c hc => by cases hc; exact ⟨by decide, rfl⟩)⟩

/-- Concrete world for the C7 witness: mode `1` pushed and active. -/
def wC7 : MW :=
  { stack := [1], active := fun m => m == 1, hasManager := fun m => m == 1,
    isMulti := fun _ => false, submodes := fun _ => [], activeSubmode := fun _ => none,
    stepRate := fun _ => some 1, events := [] }

theorem swap_modes_witness :
    (∀ m, wC7.isMulti m = false) ∧ wC7.stack = [] ++ [1] ∧ (2 ≠ 1) ∧ wC7.active 2 = false ∧
    (∃ w', swapModes 4 2 wC7 = .ok (1, w') ∧
      w'.stack = [] ++ [2] ∧
      w'.active 1 = false ∧
      w'.active 2 = true ∧
      (∀ c, c ≠ 1 → c ≠ 2 → w'.active c = wC7.active c) ∧
      w'.events = wC7.events ++ [.onDeactivate 1, .onActivate 2]) :=
  ⟨fun _ => rfl, rfl, by decide, rfl,
    swap_modes_spec 3 wC7 2 (fun _ => rfl) [] 1 rfl (by decide) rfl⟩
